import Mathlib

/-!
Verification of the phase-window / coverage core of the
`vfd-lifespan-neuroscience-phases` repository.

The source files `windows_and_coverage.py`, `monte_carlo_baselines.py`,
`ratio_scan.py` are embedded shallowly below.  Numeric values are modelled
over an arbitrary linear ordered field `α` (instantiated at `ℚ` for
executable checks and at `ℝ` for the golden-ratio scenario); the source's
IEEE doubles are idealised as exact field arithmetic, which is faithful for
every property checked here because all comparisons have large margins.

Boundary interfaces that the repository treats as external (the CSV age
table read by `load_empirical_ages`, and numpy's seeded PCG64 generator)
are modelled as explicit parameters: the age table becomes a `List α`
argument, and a seeded generator becomes a deterministic function from the
seed and a draw position to the drawn values, which is exactly the contract
`np.random.default_rng(seed)` provides.
-/

variable {α : Type} [LinearOrderedField α]

/-- Embeds the `PhaseWindow` dataclass of `windows_and_coverage.py`
(`index` is the 1-based phase index; `lower = centre - half_width`,
`upper = centre + half_width` as set by every construction site). -/
structure PhaseWindow (α : Type) where
  index : ℕ
  centre : α
  lower : α
  upper : α
  half_width : α
deriving DecidableEq, Repr

/-- `PhaseWindow.contains`: `self.lower <= age <= self.upper`. -/
def PhaseWindow.contains (w : PhaseWindow α) (age : α) : Prop :=
  w.lower ≤ age ∧ age ≤ w.upper

instance (w : PhaseWindow α) (age : α) : Decidable (w.contains age) := by
  unfold PhaseWindow.contains
  infer_instance

/-- A throwaway window used as the default value of `List.getD`. -/
def dummy_window : PhaseWindow α := ⟨0, 0, 0, 0, 0⟩

/-- The window-building loop `for idx, (c, h) in enumerate(zip(centres,
half_widths), start=1): windows.append(PhaseWindow(idx, c, c-h, c+h, h))`
that appears verbatim in `build_phase_windows`, `build_windows_for_ratio`,
`random_window_baseline`, with the running `enumerate` counter explicit. -/
def zip_windows_from (idx : ℕ) : List α → List α → List (PhaseWindow α)
  | c :: cs, h :: hs =>
      ⟨idx, c, c - h, c + h, h⟩ :: zip_windows_from (idx + 1) cs hs
  | _, _ => []

/-- The same loop started at `idx = 1` (`enumerate(..., start=1)`). -/
def zip_windows (centres half_widths : List α) : List (PhaseWindow α) :=
  zip_windows_from 1 centres half_widths

/-- `compute_phase_centres`: `t_k = A * phi^k` for `k = 1..K`. -/
def compute_phase_centres (A phi : α) (K : ℕ) : List α :=
  (List.range K).map (fun k => A * phi ^ (k + 1))

/-- `compute_window_half_widths`: `w_k = w0 * g^k` for `k = 0..K-1`. -/
def compute_window_half_widths (w0 g : α) (K : ℕ) : List α :=
  (List.range K).map (fun k => w0 * g ^ k)

/-- `build_phase_windows`: zip the centres and half-widths into windows. -/
def build_phase_windows (A phi w0 g : α) (K : ℕ) : List (PhaseWindow α) :=
  zip_windows (compute_phase_centres A phi K) (compute_window_half_widths w0 g K)

/-- The inner scanning loop of `coverage_for_ages`: walk the window list in
the order provided and stop at the first window containing the age
(`break  # first matching window is fine`), returning its `index`. -/
def first_match (windows : List (PhaseWindow α)) (age : α) : Option ℕ :=
  match windows with
  | [] => none
  | w :: ws => if w.contains age then some w.index else first_match ws age

/-- `coverage_for_ages`: returns
`(coverage, covered_mask, assigned_windows)` where `covered_mask[i]` is set
and `assigned_windows[i]` holds the first matching window's index, and
`coverage = covered_mask.mean() if N > 0 else 0.0` (the mean of a boolean
mask is the count of `True` entries over the length). -/
def coverage_for_ages (ages : List α) (windows : List (PhaseWindow α)) :
    α × List Bool × List (Option ℕ) :=
  let covered_mask := ages.map (fun a => (first_match windows a).isSome)
  let assigned_windows := ages.map (fun a => first_match windows a)
  let N := ages.length
  (if 0 < N then (covered_mask.count true : α) / (N : α) else 0,
   covered_mask, assigned_windows)

/-- `build_windows_for_ratio` (ratio_scan.py): centres `t_k = A * r^k`,
`k = 1..K`, zipped with the breathing half-widths. -/
def build_windows_for_ratio (r A w0 g : α) (K : ℕ) : List (PhaseWindow α) :=
  zip_windows ((List.range K).map (fun k => A * r ^ (k + 1)))
    (compute_window_half_widths w0 g K)

/-- `np.linspace(a, b, n)` with `endpoint=True`: `n` evenly spaced values
from `a` to `b`; `n = 1` yields `[a]`, `n = 0` the empty array. -/
def linspace (a b : α) (n : ℕ) : List α :=
  if n = 1 then [a]
  else (List.range n).map
    (fun i : ℕ => a + (b - a) * (i : α) / ((n : α) - 1))

/-- `np.argmax`: index of the first occurrence of the maximum value (a new
candidate replaces the current best only when strictly greater).  numpy
raises on an empty array; the claims only use nonempty inputs. -/
def np_argmax : List α → ℕ
  | [] => 0
  | x :: xs =>
    match xs with
    | [] => 0
    | _ :: _ => if x < xs.getD (np_argmax xs) 0 then np_argmax xs + 1 else 0

/-- The result record of `scan_ratios` (keys `'ratios'`, `'coverages'`,
`'best_r'`, `'best_coverage'`). -/
structure ScanResult (α : Type) where
  ratios : List α
  coverages : List α
  best_r : α
  best_coverage : α
deriving Repr

/-- `scan_ratios` (ratio_scan.py): `ratios = np.linspace(r_min, r_max,
n_points)`; for each ratio build windows via `build_windows_for_ratio(r)`
with the module defaults `A = 6, w0 = 3, g = 1.5, K = 5` and score the
empirical ages; `best_idx = np.argmax(coverages)`.  The empirical age table
(`load_empirical_ages`, an external CSV) is the `ages` parameter. -/
def scan_ratios (r_min r_max : α) (n_points : ℕ) (ages : List α) :
    ScanResult α :=
  let ratios := linspace r_min r_max n_points
  let coverages := ratios.map
    (fun r => (coverage_for_ages ages (build_windows_for_ratio r 6 3 (3/2) 5)).1)
  let best_idx := np_argmax coverages
  { ratios := ratios
    coverages := coverages
    best_r := ratios.getD best_idx 0
    best_coverage := coverages.getD best_idx 0 }

/-- `np.mean` of a vector: sum over length. -/
def list_mean (l : List α) : α := l.sum / (l.length : α)

/-- The square of `np.std(ddof=1)`: the sample variance with the `n - 1`
denominator.  The source reports `std_coverage = coverages.std(ddof=1)`,
the (irrational) square root of this value; since the square root is
determined by its radicand, every equality proved about this field
transfers to the reported standard deviation. -/
def sample_variance (l : List α) : α :=
  (l.map (fun x => (x - list_mean l) ^ 2)).sum / ((l.length : α) - 1)

/-- The result record of both Monte Carlo baselines (keys
`'mean_coverage'`, `'std_coverage'`, `'all_coverages'`), with the standard
deviation represented by its square (see `sample_variance`). -/
structure MCResult (α : Type) where
  mean_coverage : α
  variance_coverage : α
  all_coverages : List α
deriving Repr

/-- `random_age_baseline` (monte_carlo_baselines.py): for each of `n_iter`
trials draw `n_ages` uniform ages and score them against the fixed
reference windows.  `gen seed n_ages i` models the `i`-th trial's draw
`rng.uniform(0.0, MAX_AGE, size=n_ages)` from `np.random.default_rng(seed)`
— a deterministic function of the seed and the draw position, which is the
reproducibility contract of the seeded generator.  The fixed reference
windows (`build_phase_windows()` with the golden ratio in the source) are
the `windows` parameter.  Scope note: `n_iter` and `n_ages` are typed `ℕ`,
which covers the source's behaviour for sizes `≥ 0` exactly; for negative
sizes the source aborts with a `ValueError` raised inside numpy
(`np.zeros(n_iter)` before the loop, `rng.uniform(size=n_ages)` inside the
first trial), an error path outside this model. -/
def random_age_baseline (gen : ℕ → ℕ → ℕ → List α)
    (n_iter n_ages seed : ℕ) (windows : List (PhaseWindow α)) : MCResult α :=
  let coverages := (List.range n_iter).map
    (fun i => (coverage_for_ages (gen seed n_ages i) windows).1)
  { mean_coverage := list_mean coverages
    variance_coverage := sample_variance coverages
    all_coverages := coverages }

/-- One trial of `random_window_baseline`: `centres =
np.sort(rng.uniform(0.0, MAX_AGE, size=NUM_PHASES))` (ascending sort),
then the window-building loop pairing the sorted centres positionally with
the fixed half-widths. -/
def random_window_trial (drawn half_widths : List α) : List (PhaseWindow α) :=
  zip_windows (List.insertionSort (· ≤ ·) drawn) half_widths

/-- `random_window_baseline` (monte_carlo_baselines.py): the empirical ages
are fixed, the half-widths are `compute_window_half_widths(W0, G,
NUM_PHASES)` = `compute_window_half_widths 3 (3/2) 5`, and each trial's
drawn centres (`gen seed i`, modelling the seeded generator as in
`random_age_baseline`) are sorted before being zipped into windows. -/
def random_window_baseline (gen : ℕ → ℕ → List α) (n_iter seed : ℕ)
    (ages : List α) : MCResult α :=
  let half_widths := compute_window_half_widths 3 (3/2) 5
  let coverages := (List.range n_iter).map
    (fun i =>
      (coverage_for_ages ages (random_window_trial (gen seed i) half_widths)).1)
  { mean_coverage := list_mean coverages
    variance_coverage := sample_variance coverages
    all_coverages := coverages }

/-- Specification predicate (from the spec's wording): `res` is the index
of the first window in the given order whose closed interval contains
`age`, or `none` when no window contains it. -/
def IsFirstMatch (windows : List (PhaseWindow α)) (age : α)
    (res : Option ℕ) : Prop :=
  match res with
  | none => ∀ w ∈ windows, ¬ w.contains age
  | some idx =>
      ∃ j, j < windows.length ∧
        (windows.getD j dummy_window).contains age ∧
        idx = (windows.getD j dummy_window).index ∧
        ∀ j' < j, ¬ (windows.getD j' dummy_window).contains age

section Helpers

lemma zip_windows_from_length (cs : List α) :
    ∀ (hs : List α) (idx : ℕ),
      (zip_windows_from idx cs hs).length = min cs.length hs.length := by
  induction cs with
  | nil => intro hs idx; cases hs <;> simp [zip_windows_from]
  | cons c cs ih =>
      intro hs idx
      cases hs with
      | nil => simp [zip_windows_from]
      | cons h hs =>
          simp [zip_windows_from, ih hs (idx + 1), Nat.succ_min_succ]

lemma zip_windows_from_getD (cs : List α) :
    ∀ (hs : List α) (idx k : ℕ), k < cs.length → k < hs.length →
      (zip_windows_from idx cs hs).getD k dummy_window =
        ⟨idx + k, cs.getD k 0, cs.getD k 0 - hs.getD k 0,
          cs.getD k 0 + hs.getD k 0, hs.getD k 0⟩ := by
  induction cs with
  | nil => intro hs idx k hk _; simp at hk
  | cons c cs ih =>
      intro hs idx k hk hk'
      cases hs with
      | nil => simp at hk'
      | cons h hs =>
          cases k with
          | zero => simp [zip_windows_from]
          | succ k =>
              have := ih hs (idx + 1) k (by simpa using hk) (by simpa using hk')
              simp only [zip_windows_from, List.getD_cons_succ, this]
              congr 1
              omega

lemma zip_windows_from_mem (cs : List α) :
    ∀ (hs : List α) (idx : ℕ) (w : PhaseWindow α),
      w ∈ zip_windows_from idx cs hs →
      ∃ k, k < cs.length ∧ k < hs.length ∧
        w = ⟨idx + k, cs.getD k 0, cs.getD k 0 - hs.getD k 0,
          cs.getD k 0 + hs.getD k 0, hs.getD k 0⟩ := by
  induction cs with
  | nil => intro hs idx w hw; simp [zip_windows_from] at hw
  | cons c cs ih =>
      intro hs idx w hw
      cases hs with
      | nil => simp [zip_windows_from] at hw
      | cons h hs =>
          simp only [zip_windows_from, List.mem_cons] at hw
          rcases hw with hw | hw
          · exact ⟨0, by simp, by simp, by simpa using hw⟩
          · obtain ⟨k, hk, hk', hw⟩ := ih hs (idx + 1) w hw
            refine ⟨k + 1, by simpa using hk, by simpa using hk', ?_⟩
            rw [hw]
            simp only [List.getD_cons_succ]
            congr 1
            omega

lemma first_match_spec (ws : List (PhaseWindow α)) (a : α) :
    IsFirstMatch ws a (first_match ws a) := by
  induction ws with
  | nil => intro w hw; simp at hw
  | cons w ws ih =>
      by_cases hc : w.contains a
      · show IsFirstMatch _ _ (if w.contains a then some w.index else _)
        rw [if_pos hc]
        exact ⟨0, by simp, by simpa using hc, by simp, by omega⟩
      · show IsFirstMatch _ _ (if w.contains a then some w.index else _)
        rw [if_neg hc]
        cases hfm : first_match ws a with
        | none =>
            rw [hfm] at ih
            intro w' hw'
            rcases List.mem_cons.1 hw' with rfl | hw'
            · exact hc
            · exact ih w' hw'
        | some idx =>
            rw [hfm] at ih
            obtain ⟨j, hj, hcont, hidx, hmin⟩ := ih
            refine ⟨j + 1, by simpa using hj, by simpa using hcont,
              by simpa using hidx, ?_⟩
            intro j' hj'
            cases j' with
            | zero => simpa using hc
            | succ j' => simpa using hmin j' (by omega)

lemma first_match_isSome_iff (ws : List (PhaseWindow α)) (a : α) :
    (first_match ws a).isSome = true ↔ ∃ w ∈ ws, w.contains a := by
  induction ws with
  | nil => simp [first_match]
  | cons w ws ih =>
      by_cases hc : w.contains a
      · simp [first_match, hc]
      · simp [first_match, hc, ih]

lemma getD_map_of_lt {β γ : Type} (f : β → γ) (l : List β) (i : ℕ)
    (hi : i < l.length) (d : γ) (d' : β) :
    (l.map f).getD i d = f (l.getD i d') := by
  induction l generalizing i with
  | nil => simp at hi
  | cons x xs ih =>
      cases i with
      | zero => simp
      | succ i => simpa using ih i (by simpa using hi)

lemma count_true_map_false {β : Type} (l : List β) :
    (l.map (fun _ => false)).count true = 0 := by
  induction l with
  | nil => simp
  | cons x xs ih => simpa using ih

end Helpers

/-- C8: `coverage_for_ages` on an empty age sequence returns coverage `0`
with empty covered and assignment sequences; on any age sequence with an
empty window sequence it returns coverage `0` with every age uncovered and
unassigned.  Both are ordinary return paths of the total function, not
errors. -/
theorem coverage_degenerate_inputs (windows : List (PhaseWindow ℚ))
    (ages : List ℚ) :
    coverage_for_ages ([] : List ℚ) windows = (0, [], []) ∧
    (coverage_for_ages ages ([] : List (PhaseWindow ℚ))).1 = 0 ∧
    (coverage_for_ages ages ([] : List (PhaseWindow ℚ))).2.1 =
      ages.map (fun _ => false) ∧
    (coverage_for_ages ages ([] : List (PhaseWindow ℚ))).2.2 =
      ages.map (fun _ => none) := by
  refine ⟨by simp [coverage_for_ages], ?_, ?_, ?_⟩
  · simp only [coverage_for_ages, first_match]
    rcases Nat.eq_zero_or_pos ages.length with h | h
    · simp [h]
    · simp [h, List.count_replicate]
  · simp [coverage_for_ages, first_match]
  · simp [coverage_for_ages, first_match]

/-- C9: `scan_ratios` with `n_points = 1` evaluates exactly the single
ratio `r_min`, reports it as `best_r` with its coverage as
`best_coverage`, and ignores `r_max` entirely. -/
theorem scan_ratios_single_point (r_min r_max r_max' : ℚ) (ages : List ℚ) :
    (scan_ratios r_min r_max 1 ages).ratios = [r_min] ∧
    (scan_ratios r_min r_max 1 ages).coverages =
      [(coverage_for_ages ages (build_windows_for_ratio r_min 6 3 (3/2) 5)).1] ∧
    (scan_ratios r_min r_max 1 ages).best_r = r_min ∧
    (scan_ratios r_min r_max 1 ages).best_coverage =
      (coverage_for_ages ages (build_windows_for_ratio r_min 6 3 (3/2) 5)).1 ∧
    scan_ratios r_min r_max 1 ages = scan_ratios r_min r_max' 1 ages := by
  refine ⟨?_, ?_, ?_, ?_, ?_⟩ <;>
    simp [scan_ratios, linspace, np_argmax]

/-- C2 (amended): invalid configurations are not rejected by an up-front
check.  Window construction is total: it returns a list of exactly `K`
windows for every anchor `A` (including `A ≤ 0`), ratio, and half-width
parameters (including negative ones), with `K = 0` (the `K < 1` case)
yielding the empty list rather than an error.  `random_age_baseline` with
the non-positive size `n_iter = 0` likewise does not fail: it runs no
trials and returns an empty coverage vector.  (For negative `n_iter` or
`n_ages` the source aborts only incidentally, with a `ValueError` raised
inside numpy — `np.zeros` before the loop, `rng.uniform` inside the first
trial — not via a configuration check; negative sizes are outside this
`ℕ`-typed model and outside this theorem.) -/
theorem no_configuration_validation (A phi w0 g : ℚ) (K : ℕ)
    (gen : ℕ → ℕ → ℕ → List ℚ) (n_ages seed : ℕ)
    (windows : List (PhaseWindow ℚ)) :
    (build_phase_windows A phi w0 g K).length = K ∧
    (random_age_baseline gen 0 n_ages seed windows).all_coverages = [] := by
  constructor
  · simp [build_phase_windows, zip_windows, zip_windows_from_length,
      compute_phase_centres, compute_window_half_widths]
  · rfl

/-- C1: for every age sequence and window sequence, `coverage_for_ages`
assigns to each age the index of the first window (in the given order)
whose closed interval contains it (`none` when no window does), marks the
age covered exactly when it is assigned, and returns coverage equal to the
mean of the covered mask (count of `true` over the number of ages). -/
theorem coverage_first_match (ages : List ℚ) (ws : List (PhaseWindow ℚ))
    (i : ℕ) (hi : i < ages.length) :
    IsFirstMatch ws (ages.getD i 0)
      ((coverage_for_ages ages ws).2.2.getD i none) ∧
    (coverage_for_ages ages ws).2.1.getD i false =
      ((coverage_for_ages ages ws).2.2.getD i none).isSome ∧
    (coverage_for_ages ages ws).1 =
      ((coverage_for_ages ages ws).2.1.count true : ℚ) / (ages.length : ℚ) := by
  have hassign : (coverage_for_ages ages ws).2.2.getD i none =
      first_match ws (ages.getD i 0) := by
    simp only [coverage_for_ages]
    exact getD_map_of_lt _ ages i hi none 0
  have hcov : (coverage_for_ages ages ws).2.1.getD i false =
      (first_match ws (ages.getD i 0)).isSome := by
    simp only [coverage_for_ages]
    exact getD_map_of_lt _ ages i hi false 0
  refine ⟨?_, ?_, ?_⟩
  · rw [hassign]; exact first_match_spec ws (ages.getD i 0)
  · rw [hassign, hcov]
  · simp only [coverage_for_ages]
    rw [if_pos (by omega : 0 < ages.length)]

/-- Witness for C1 at a concrete input: ages `[9, 24, 200]` against the
rational-ratio windows `build_phase_windows 6 (3/2) 3 (3/2) 5`, position
`i = 0`. -/
theorem coverage_first_match_witness :
    0 < ([9, 24, 200] : List ℚ).length ∧
    (IsFirstMatch (build_phase_windows (6 : ℚ) (3/2) 3 (3/2) 5)
        (([9, 24, 200] : List ℚ).getD 0 0)
        ((coverage_for_ages [9, 24, 200]
          (build_phase_windows (6 : ℚ) (3/2) 3 (3/2) 5)).2.2.getD 0 none) ∧
      (coverage_for_ages [9, 24, 200]
        (build_phase_windows (6 : ℚ) (3/2) 3 (3/2) 5)).2.1.getD 0 false =
        ((coverage_for_ages [9, 24, 200]
          (build_phase_windows (6 : ℚ) (3/2) 3 (3/2) 5)).2.2.getD 0 none).isSome ∧
      (coverage_for_ages [9, 24, 200]
        (build_phase_windows (6 : ℚ) (3/2) 3 (3/2) 5)).1 =
        ((coverage_for_ages [9, 24, 200]
          (build_phase_windows (6 : ℚ) (3/2) 3 (3/2) 5)).2.1.count true : ℚ) /
          (([9, 24, 200] : List ℚ).length : ℚ)) :=
  ⟨by decide,
   coverage_first_match [9, 24, 200]
     (build_phase_windows (6 : ℚ) (3/2) 3 (3/2) 5) 0 (by decide)⟩

/-- C4: permuting the window sequence (same underlying multiset of
windows) never changes the coverage value or the covered mask; the
assignment of each run still names the earliest window, in that run's own
window order, containing the age. -/
theorem coverage_perm_invariant (ages : List ℚ)
    (ws₁ ws₂ : List (PhaseWindow ℚ)) (h : ws₁.Perm ws₂) :
    (coverage_for_ages ages ws₁).1 = (coverage_for_ages ages ws₂).1 ∧
    (coverage_for_ages ages ws₁).2.1 = (coverage_for_ages ages ws₂).2.1 ∧
    ∀ i < ages.length,
      IsFirstMatch ws₁ (ages.getD i 0)
        ((coverage_for_ages ages ws₁).2.2.getD i none) ∧
      IsFirstMatch ws₂ (ages.getD i 0)
        ((coverage_for_ages ages ws₂).2.2.getD i none) := by
  have bool_ext : ∀ (b₁ b₂ : Bool), (b₁ = true ↔ b₂ = true) → b₁ = b₂ := by
    decide
  have hsome : ∀ a : ℚ,
      (first_match ws₁ a).isSome = (first_match ws₂ a).isSome := by
    intro a
    refine bool_ext _ _ ?_
    rw [first_match_isSome_iff, first_match_isSome_iff]
    constructor
    · rintro ⟨w, hw, hc⟩; exact ⟨w, h.mem_iff.1 hw, hc⟩
    · rintro ⟨w, hw, hc⟩; exact ⟨w, h.mem_iff.2 hw, hc⟩
  have hmask : (coverage_for_ages ages ws₁).2.1 =
      (coverage_for_ages ages ws₂).2.1 := by
    simp only [coverage_for_ages]
    exact List.map_congr_left (fun a _ => hsome a)
  refine ⟨?_, hmask, ?_⟩
  · simp only [coverage_for_ages] at hmask ⊢
    rw [hmask]
  · intro i hi
    constructor
    · have hassign : (coverage_for_ages ages ws₁).2.2.getD i none =
          first_match ws₁ (ages.getD i 0) := by
        simp only [coverage_for_ages]
        exact getD_map_of_lt _ ages i hi none 0
      rw [hassign]; exact first_match_spec ws₁ (ages.getD i 0)
    · have hassign : (coverage_for_ages ages ws₂).2.2.getD i none =
          first_match ws₂ (ages.getD i 0) := by
        simp only [coverage_for_ages]
        exact getD_map_of_lt _ ages i hi none 0
      rw [hassign]; exact first_match_spec ws₂ (ages.getD i 0)

/-- Witness for C4 at a concrete input: two overlapping windows listed in
the two opposite orders. -/
theorem coverage_perm_invariant_witness :
    (([⟨1, 10, 5, 15, 5⟩, ⟨2, 12, 6, 18, 6⟩] :
        List (PhaseWindow ℚ)).Perm [⟨2, 12, 6, 18, 6⟩, ⟨1, 10, 5, 15, 5⟩]) ∧
    ((coverage_for_ages [7] ([⟨1, 10, 5, 15, 5⟩, ⟨2, 12, 6, 18, 6⟩] :
        List (PhaseWindow ℚ))).1 =
      (coverage_for_ages [7] ([⟨2, 12, 6, 18, 6⟩, ⟨1, 10, 5, 15, 5⟩] :
        List (PhaseWindow ℚ))).1 ∧
     (coverage_for_ages [7] ([⟨1, 10, 5, 15, 5⟩, ⟨2, 12, 6, 18, 6⟩] :
        List (PhaseWindow ℚ))).2.1 =
      (coverage_for_ages [7] ([⟨2, 12, 6, 18, 6⟩, ⟨1, 10, 5, 15, 5⟩] :
        List (PhaseWindow ℚ))).2.1 ∧
     ∀ i < ([7] : List ℚ).length,
      IsFirstMatch ([⟨1, 10, 5, 15, 5⟩, ⟨2, 12, 6, 18, 6⟩] :
          List (PhaseWindow ℚ)) (([7] : List ℚ).getD i 0)
        ((coverage_for_ages [7] ([⟨1, 10, 5, 15, 5⟩, ⟨2, 12, 6, 18, 6⟩] :
          List (PhaseWindow ℚ))).2.2.getD i none) ∧
      IsFirstMatch ([⟨2, 12, 6, 18, 6⟩, ⟨1, 10, 5, 15, 5⟩] :
          List (PhaseWindow ℚ)) (([7] : List ℚ).getD i 0)
        ((coverage_for_ages [7] ([⟨2, 12, 6, 18, 6⟩, ⟨1, 10, 5, 15, 5⟩] :
          List (PhaseWindow ℚ))).2.2.getD i none)) :=
  ⟨by decide,
   coverage_perm_invariant [7] _ _ (by decide)⟩

lemma getD_range (K k : ℕ) (hk : k < K) : (List.range K).getD k 0 = k := by
  rw [List.getD_eq_getElem?_getD, List.getElem?_range hk]
  rfl

lemma headD_eq_getD_zero {β : Type} (l : List β) (d : β) :
    l.headD d = l.getD 0 d := by
  cases l <;> rfl

lemma zip_windows_from_map_centre_sublist (cs : List α) :
    ∀ (hs : List α) (idx : ℕ),
      ((zip_windows_from idx cs hs).map PhaseWindow.centre).Sublist cs := by
  induction cs with
  | nil => intro hs idx; cases hs <;> simp [zip_windows_from]
  | cons c cs ih =>
      intro hs idx
      cases hs with
      | nil => simp [zip_windows_from]
      | cons h hs =>
          simpa [zip_windows_from] using (ih hs (idx + 1)).cons₂ c

/-- C6: `random_age_baseline` is a deterministic function of its
arguments.  The seeded generator `np.random.default_rng(seed)` is modelled
as a deterministic function `gen` of the seed and the draw position (its
documented contract); the source constructs it afresh from the `seed`
argument on every call and consumes no other mutable state, so two calls
with identical arguments return identical results — coverage vector, mean
and (squared) standard deviation alike. -/
theorem random_age_deterministic (gen : ℕ → ℕ → ℕ → List ℚ)
    (n_iter n_ages seed n_iter' n_ages' seed' : ℕ)
    (windows : List (PhaseWindow ℚ))
    (h1 : n_iter = n_iter') (h2 : n_ages = n_ages') (h3 : seed = seed') :
    random_age_baseline gen n_iter n_ages seed windows =
      random_age_baseline gen n_iter' n_ages' seed' windows := by
  subst h1; subst h2; subst h3; rfl

/-- Witness for C6 at a concrete input: the source's default sizing
`n_iter`-like small run with seed `12345` evaluated twice. -/
theorem random_age_deterministic_witness :
    ((1 : ℕ) = 1 ∧ (16 : ℕ) = 16 ∧ (12345 : ℕ) = 12345) ∧
    random_age_baseline (fun _ _ _ => ([10, 95] : List ℚ)) 1 16 12345 [] =
      random_age_baseline (fun _ _ _ => ([10, 95] : List ℚ)) 1 16 12345 [] :=
  ⟨⟨rfl, rfl, rfl⟩,
   random_age_deterministic (fun _ _ _ => ([10, 95] : List ℚ))
     1 16 12345 1 16 12345 [] rfl rfl rfl⟩

/-- C10: with a negative half-width base `w0 < 0` and positive growth
factor `g > 0`, window construction completes without any error (it is a
total function), but every resulting window has `upper < lower`, its
closed-interval membership test rejects every age, and the coverage of any
age sequence against such windows is `0`. -/
theorem negative_half_width_windows (A phi w0 g : ℚ)
    (hw0 : w0 < 0) (hg : 0 < g) (K : ℕ) :
    (∀ w ∈ build_phase_windows A phi w0 g K,
      w.upper < w.lower ∧ ∀ age : ℚ, ¬ w.contains age) ∧
    ∀ ages : List ℚ,
      (coverage_for_ages ages (build_phase_windows A phi w0 g K)).1 = 0 := by
  have hbad : ∀ w ∈ build_phase_windows A phi w0 g K,
      w.upper < w.lower ∧ ∀ age : ℚ, ¬ w.contains age := by
    intro w hw
    obtain ⟨k, hk, hk', hwe⟩ :=
      zip_windows_from_mem _ _ 1 w hw
    have hklt : k < K := by
      simpa [compute_phase_centres] using hk
    have hhw : (compute_window_half_widths w0 g K).getD k 0 = w0 * g ^ k := by
      unfold compute_window_half_widths
      rw [getD_map_of_lt _ _ k (by simpa using hklt) 0 0, getD_range K k hklt]
    have hneg : (compute_window_half_widths w0 g K).getD k 0 < 0 := by
      rw [hhw]
      exact mul_neg_of_neg_of_pos hw0 (pow_pos hg k)
    constructor
    · rw [hwe]
      simp only
      linarith
    · intro age hcont
      rw [hwe] at hcont
      obtain ⟨hle, hge⟩ := hcont
      simp only at hle hge
      linarith
  refine ⟨hbad, ?_⟩
  intro ages
  have hnone : ∀ a : ℚ,
      first_match (build_phase_windows A phi w0 g K) a = none := by
    intro a
    cases hfm : first_match (build_phase_windows A phi w0 g K) a with
    | none => rfl
    | some idx =>
        obtain ⟨w, hw, hc⟩ :=
          (first_match_isSome_iff (build_phase_windows A phi w0 g K) a).1
            (by rw [hfm]; rfl)
        exact absurd hc ((hbad w hw).2 a)
  simp only [coverage_for_ages]
  have hmask : ages.map
      (fun a => (first_match (build_phase_windows A phi w0 g K) a).isSome) =
      ages.map (fun _ => false) :=
    List.map_congr_left (fun a _ => by rw [hnone a]; rfl)
  rw [hmask]
  rcases Nat.eq_zero_or_pos ages.length with h | h
  · simp [h]
  · rw [if_pos h, count_true_map_false]
    simp

/-- Witness for C10 at a concrete input: `w0 = -1 < 0`, `g = 2 > 0`. -/
theorem negative_half_width_windows_witness :
    ((-1 : ℚ) < 0 ∧ (0 : ℚ) < 2) ∧
    ((∀ w ∈ build_phase_windows (6 : ℚ) (3/2) (-1) 2 5,
      w.upper < w.lower ∧ ∀ age : ℚ, ¬ w.contains age) ∧
    ∀ ages : List ℚ,
      (coverage_for_ages ages (build_phase_windows (6 : ℚ) (3/2) (-1) 2 5)).1
        = 0) :=
  ⟨⟨by norm_num, by norm_num⟩,
   negative_half_width_windows 6 (3/2) (-1) 2 (by norm_num) (by norm_num) 5⟩

/-- C5: in every trial of `random_window_baseline`, whatever values are
drawn, the drawn centres are sorted ascending before being paired
positionally with the fixed half-width sequence: the trial's windows have
non-decreasing centres, window `k+1` carries the `k`-th fixed half-width,
and the first window has index 1 and the smallest drawn centre.  The last
conjunct ties the trial windows to the baseline's recorded coverage. -/
theorem random_window_sorted (gen : ℕ → ℕ → List ℚ) (n_iter seed : ℕ)
    (ages : List ℚ) (i : ℕ) (hi : i < n_iter) (hne : gen seed i ≠ []) :
    ((random_window_trial (gen seed i)
        (compute_window_half_widths 3 (3/2) 5)).map
        PhaseWindow.centre).Sorted (· ≤ ·) ∧
    (∀ k < (random_window_trial (gen seed i)
        (compute_window_half_widths 3 (3/2) 5)).length,
      ((random_window_trial (gen seed i)
          (compute_window_half_widths 3 (3/2) 5)).getD k dummy_window).index
        = k + 1 ∧
      ((random_window_trial (gen seed i)
          (compute_window_half_widths 3 (3/2) 5)).getD k
          dummy_window).half_width =
        (compute_window_half_widths (3 : ℚ) (3/2) 5).getD k 0) ∧
    ((random_window_trial (gen seed i)
        (compute_window_half_widths 3 (3/2) 5)).headD dummy_window).index
      = 1 ∧
    (∀ c ∈ gen seed i,
      ((random_window_trial (gen seed i)
          (compute_window_half_widths 3 (3/2) 5)).headD
          dummy_window).centre ≤ c) ∧
    (random_window_baseline gen n_iter seed ages).all_coverages.getD i 0 =
      (coverage_for_ages ages (random_window_trial (gen seed i)
        (compute_window_half_widths 3 (3/2) 5))).1 := by
  set drawn := gen seed i with hdrawn
  set hw : List ℚ := compute_window_half_widths 3 (3/2) 5 with hhw
  set s : List ℚ := List.insertionSort (· ≤ ·) drawn with hs
  have hperm : s.Perm drawn := List.perm_insertionSort _ drawn
  have hsorted : s.Sorted (· ≤ ·) := List.sorted_insertionSort _ drawn
  have hslen : s.length = drawn.length := hperm.length_eq
  have hwlen : hw.length = 5 := by
    simp [hhw, compute_window_half_widths]
  have hlen : (random_window_trial drawn hw).length = min s.length 5 := by
    rw [random_window_trial, zip_windows, zip_windows_from_length, hwlen]
  have hslen0 : 0 < s.length := by
    rw [hslen]
    exact List.length_pos.2 hne
  have hlen0 : 0 < (random_window_trial drawn hw).length := by
    rw [hlen]
    omega
  have hgetD : ∀ k < (random_window_trial drawn hw).length,
      (random_window_trial drawn hw).getD k dummy_window =
        ⟨1 + k, s.getD k 0, s.getD k 0 - hw.getD k 0,
          s.getD k 0 + hw.getD k 0, hw.getD k 0⟩ := by
    intro k hk
    rw [hlen] at hk
    exact zip_windows_from_getD s hw 1 k (by omega) (by omega)
  refine ⟨?_, ?_, ?_, ?_, ?_⟩
  · exact hsorted.sublist (zip_windows_from_map_centre_sublist s hw 1)
  · intro k hk
    rw [hgetD k hk]
    exact ⟨by show 1 + k = k + 1; omega, rfl⟩
  · rw [headD_eq_getD_zero, hgetD 0 hlen0]
  · intro c hc
    rw [headD_eq_getD_zero, hgetD 0 hlen0]
    simp only
    obtain ⟨s0, srest, hcons⟩ := List.exists_cons_of_ne_nil
      (List.length_pos.1 hslen0)
    have hc' : c ∈ s := hperm.mem_iff.2 hc
    rw [hcons] at hc' hsorted ⊢
    simp only [List.getD_cons_zero]
    rcases List.mem_cons.1 hc' with rfl | hc'
    · exact le_refl c
    · exact (List.sorted_cons.1 hsorted).1 c hc'
  · rw [random_window_baseline]
    simp only
    rw [getD_map_of_lt _ (List.range n_iter) i (by simpa using hi) 0 0,
      getD_range n_iter i hi]

/-- Witness for C5 at a concrete input: one trial with drawn centres
`[50, 10, 30, 20, 40]`. -/
theorem random_window_sorted_witness :
    ((0 : ℕ) < 1 ∧ (fun _ _ => ([50, 10, 30, 20, 40] : List ℚ)) 7 0 ≠ []) ∧
    (((random_window_trial ((fun _ _ => ([50, 10, 30, 20, 40] : List ℚ)) 7 0)
        (compute_window_half_widths 3 (3/2) 5)).map
        PhaseWindow.centre).Sorted (· ≤ ·) ∧
    (∀ k < (random_window_trial
        ((fun _ _ => ([50, 10, 30, 20, 40] : List ℚ)) 7 0)
        (compute_window_half_widths 3 (3/2) 5)).length,
      ((random_window_trial ((fun _ _ => ([50, 10, 30, 20, 40] : List ℚ)) 7 0)
          (compute_window_half_widths 3 (3/2) 5)).getD k dummy_window).index
        = k + 1 ∧
      ((random_window_trial ((fun _ _ => ([50, 10, 30, 20, 40] : List ℚ)) 7 0)
          (compute_window_half_widths 3 (3/2) 5)).getD k
          dummy_window).half_width =
        (compute_window_half_widths (3 : ℚ) (3/2) 5).getD k 0) ∧
    ((random_window_trial ((fun _ _ => ([50, 10, 30, 20, 40] : List ℚ)) 7 0)
        (compute_window_half_widths 3 (3/2) 5)).headD dummy_window).index
      = 1 ∧
    (∀ c ∈ (fun _ _ => ([50, 10, 30, 20, 40] : List ℚ)) 7 0,
      ((random_window_trial ((fun _ _ => ([50, 10, 30, 20, 40] : List ℚ)) 7 0)
          (compute_window_half_widths 3 (3/2) 5)).headD
          dummy_window).centre ≤ c) ∧
    (random_window_baseline (fun _ _ => ([50, 10, 30, 20, 40] : List ℚ))
        1 7 [12]).all_coverages.getD 0 0 =
      (coverage_for_ages [12] (random_window_trial
        ((fun _ _ => ([50, 10, 30, 20, 40] : List ℚ)) 7 0)
        (compute_window_half_widths 3 (3/2) 5))).1) :=
  ⟨⟨by norm_num, by simp⟩,
   random_window_sorted (fun _ _ => ([50, 10, 30, 20, 40] : List ℚ))
     1 7 [12] 0 (by norm_num) (by simp)⟩

lemma linspace_length (a b : α) (n : ℕ) : (linspace a b n).length = n := by
  unfold linspace
  split
  · rename_i h
    simp [h]
  · rw [List.length_map, List.length_range]

lemma linspace_getD (a b : α) (n i : ℕ) (h2 : 2 ≤ n) (hi : i < n) :
    (linspace a b n).getD i 0 = a + (b - a) * (i : α) / ((n : α) - 1) := by
  unfold linspace
  rw [if_neg (by omega : ¬ n = 1)]
  have hi' : i < ((List.range n).map
      (fun j : ℕ => a + (b - a) * (j : α) / ((n : α) - 1))).length := by
    rw [List.length_map, List.length_range]
    exact hi
  rw [List.getD_eq_getElem _ _ hi', List.getElem_map, List.getElem_range]

lemma np_argmax_singleton (x : α) : np_argmax [x] = 0 := rfl

lemma np_argmax_cons_cons (x y : α) (ys : List α) :
    np_argmax (x :: y :: ys) =
      if x < (y :: ys).getD (np_argmax (y :: ys)) 0 then
        np_argmax (y :: ys) + 1
      else 0 := rfl

lemma np_argmax_spec (l : List α) (hl : l ≠ []) :
    np_argmax l < l.length ∧
    (∀ i < l.length, l.getD i 0 ≤ l.getD (np_argmax l) 0) ∧
    (∀ i < np_argmax l, l.getD i 0 < l.getD (np_argmax l) 0) := by
  induction l with
  | nil => exact absurd rfl hl
  | cons x xs ih =>
      cases xs with
      | nil =>
          refine ⟨?_, ?_, ?_⟩
          · rw [np_argmax_singleton]
            simp
          · intro i hi
            have hi0 : i = 0 := by
              simp only [List.length_cons, List.length_nil] at hi
              omega
            subst hi0
            exact le_refl _
          · intro i hi
            rw [np_argmax_singleton] at hi
            omega
      | cons y ys =>
          obtain ⟨hjlt, hmax, hfirst⟩ := ih (by simp)
          by_cases hx : x < (y :: ys).getD (np_argmax (y :: ys)) 0
          · have hval : np_argmax (x :: y :: ys) = np_argmax (y :: ys) + 1 := by
              rw [np_argmax_cons_cons, if_pos hx]
            rw [hval]
            refine ⟨by simpa using hjlt, ?_, ?_⟩
            · intro i hi
              cases i with
              | zero => simpa using hx.le
              | succ i =>
                  simp only [List.getD_cons_succ]
                  exact hmax i (by simpa using hi)
            · intro i hi
              cases i with
              | zero => simpa using hx
              | succ i =>
                  simp only [List.getD_cons_succ]
                  exact hfirst i (by omega)
          · have hval : np_argmax (x :: y :: ys) = 0 := by
              rw [np_argmax_cons_cons, if_neg hx]
            rw [hval]
            refine ⟨by simp, ?_, ?_⟩
            · intro i hi
              cases i with
              | zero => simp
              | succ i =>
                  simp only [List.getD_cons_succ, List.getD_cons_zero]
                  exact le_trans (hmax i (by simpa using hi)) (not_lt.1 hx)
            · intro i hi
              simp at hi

/-- C7 (amended, theorem): for `n_points ≥ 2`, `scan_ratios` generates
exactly `n_points` ratios with first value `r_min`, last value `r_max`,
all consecutive differences equal to `(r_max - r_min)/(n_points - 1)`
(ascending whenever `r_min ≤ r_max`); it records for each ratio the
coverage of the fixed ages against the windows built from centres
`A * r^k` (module defaults `A = 6`, half-widths `3 * 1.5^k`), and returns
as `best_r` a scanned ratio whose coverage is maximal, every
earlier-scanned ratio having strictly smaller coverage (first occurrence
in scan order). -/
theorem scan_ratios_grid_spec (r_min r_max : ℚ) (n : ℕ) (ages : List ℚ)
    (hn : 2 ≤ n) :
    (scan_ratios r_min r_max n ages).ratios.length = n ∧
    (scan_ratios r_min r_max n ages).ratios.getD 0 0 = r_min ∧
    (scan_ratios r_min r_max n ages).ratios.getD (n - 1) 0 = r_max ∧
    (∀ i, i + 1 < n →
      (scan_ratios r_min r_max n ages).ratios.getD (i + 1) 0 -
        (scan_ratios r_min r_max n ages).ratios.getD i 0 =
        (r_max - r_min) / ((n : ℚ) - 1)) ∧
    (r_min ≤ r_max →
      (scan_ratios r_min r_max n ages).ratios.Sorted (· ≤ ·)) ∧
    (scan_ratios r_min r_max n ages).coverages =
      (scan_ratios r_min r_max n ages).ratios.map
        (fun r =>
          (coverage_for_ages ages (build_windows_for_ratio r 6 3 (3/2) 5)).1) ∧
    ∃ j < n,
      (scan_ratios r_min r_max n ages).best_r =
        (scan_ratios r_min r_max n ages).ratios.getD j 0 ∧
      (scan_ratios r_min r_max n ages).best_coverage =
        (scan_ratios r_min r_max n ages).coverages.getD j 0 ∧
      (∀ i < n, (scan_ratios r_min r_max n ages).coverages.getD i 0 ≤
        (scan_ratios r_min r_max n ages).coverages.getD j 0) ∧
      ∀ i < j, (scan_ratios r_min r_max n ages).coverages.getD i 0 <
        (scan_ratios r_min r_max n ages).coverages.getD j 0 := by
  have hnq : (0 : ℚ) < (n : ℚ) - 1 := by
    have : (2 : ℚ) ≤ (n : ℚ) := by exact_mod_cast hn
    linarith
  have hratios : (scan_ratios r_min r_max n ages).ratios =
      linspace r_min r_max n := rfl
  have hcovs : (scan_ratios r_min r_max n ages).coverages =
      (linspace r_min r_max n).map
        (fun r =>
          (coverage_for_ages ages (build_windows_for_ratio r 6 3 (3/2) 5)).1)
      := rfl
  have hlen : (scan_ratios r_min r_max n ages).ratios.length = n := by
    rw [hratios, linspace_length]
  have hclen : (scan_ratios r_min r_max n ages).coverages.length = n := by
    rw [hcovs, List.length_map, linspace_length]
  refine ⟨hlen, ?_, ?_, ?_, ?_, hcovs, ?_⟩
  · rw [hratios, linspace_getD r_min r_max n 0 hn (by omega)]
    push_cast
    ring
  · rw [hratios, linspace_getD r_min r_max n (n - 1) hn (by omega)]
    have hcast : ((n - 1 : ℕ) : ℚ) = (n : ℚ) - 1 := by
      have : (1 : ℕ) ≤ n := by omega
      push_cast [this]
      ring
    rw [hcast]
    field_simp
  · intro i hi
    rw [hratios, linspace_getD r_min r_max n (i + 1) hn (by omega),
      linspace_getD r_min r_max n i hn (by omega)]
    push_cast
    field_simp
    ring
  · intro hle
    rw [hratios]
    unfold linspace
    rw [if_neg (by omega : ¬ n = 1)]
    refine List.Pairwise.map _ ?_ (List.pairwise_lt_range n)
    intro i j hij
    show r_min + (r_max - r_min) * (i : ℚ) / ((n : ℚ) - 1) ≤
      r_min + (r_max - r_min) * (j : ℚ) / ((n : ℚ) - 1)
    have hij' : (i : ℚ) ≤ (j : ℚ) := by exact_mod_cast hij.le
    have hba : (0 : ℚ) ≤ r_max - r_min := by linarith
    have hstep : (r_max - r_min) * (i : ℚ) ≤ (r_max - r_min) * (j : ℚ) :=
      mul_le_mul_of_nonneg_left hij' hba
    have hdiv : (r_max - r_min) * (i : ℚ) / ((n : ℚ) - 1) ≤
        (r_max - r_min) * (j : ℚ) / ((n : ℚ) - 1) :=
      (div_le_div_iff_of_pos_right hnq).2 hstep
    linarith [hdiv]
  · have hcne : (scan_ratios r_min r_max n ages).coverages ≠ [] := by
      intro h
      rw [h] at hclen
      simp at hclen
      omega
    obtain ⟨hjlt, hmax, hfirst⟩ :=
      np_argmax_spec (scan_ratios r_min r_max n ages).coverages hcne
    have hjlt' : np_argmax (scan_ratios r_min r_max n ages).coverages < n := by
      have h' := hjlt
      rw [hclen] at h'
      exact h'
    refine ⟨np_argmax (scan_ratios r_min r_max n ages).coverages,
      hjlt', rfl, rfl, ?_, ?_⟩
    · intro i hi
      exact hmax i (by rw [hclen]; exact hi)
    · exact hfirst

/-- Witness for C7 at a concrete input: `r_min = 1`, `r_max = 2`,
`n_points = 3`, empty age list. -/
theorem scan_ratios_grid_spec_witness :
    2 ≤ 3 ∧
    ((scan_ratios (1 : ℚ) 2 3 []).ratios.length = 3 ∧
    (scan_ratios (1 : ℚ) 2 3 []).ratios.getD 0 0 = 1 ∧
    (scan_ratios (1 : ℚ) 2 3 []).ratios.getD (3 - 1) 0 = 2 ∧
    (∀ i, i + 1 < 3 →
      (scan_ratios (1 : ℚ) 2 3 []).ratios.getD (i + 1) 0 -
        (scan_ratios (1 : ℚ) 2 3 []).ratios.getD i 0 =
        ((2 : ℚ) - 1) / ((3 : ℚ) - 1)) ∧
    ((1 : ℚ) ≤ 2 → (scan_ratios (1 : ℚ) 2 3 []).ratios.Sorted (· ≤ ·)) ∧
    (scan_ratios (1 : ℚ) 2 3 []).coverages =
      (scan_ratios (1 : ℚ) 2 3 []).ratios.map
        (fun r =>
          (coverage_for_ages [] (build_windows_for_ratio r 6 3 (3/2) 5)).1) ∧
    ∃ j < 3,
      (scan_ratios (1 : ℚ) 2 3 []).best_r =
        (scan_ratios (1 : ℚ) 2 3 []).ratios.getD j 0 ∧
      (scan_ratios (1 : ℚ) 2 3 []).best_coverage =
        (scan_ratios (1 : ℚ) 2 3 []).coverages.getD j 0 ∧
      (∀ i < 3, (scan_ratios (1 : ℚ) 2 3 []).coverages.getD i 0 ≤
        (scan_ratios (1 : ℚ) 2 3 []).coverages.getD j 0) ∧
      ∀ i < j, (scan_ratios (1 : ℚ) 2 3 []).coverages.getD i 0 <
        (scan_ratios (1 : ℚ) 2 3 []).coverages.getD j 0) := by
  have h := scan_ratios_grid_spec 1 2 3 [] (by norm_num)
  refine ⟨by norm_num, ?_⟩
  convert h using 3

/-- C7 (counterexample): with `n_points = 1` and `r_min = 1 ≠ 2 = r_max`,
`scan_ratios` generates only the single ratio `1`; the endpoint `r_max =
2` is not among the generated ratios, refuting the claim that the grid
always includes both endpoints. -/
theorem scan_ratios_endpoints_counterexample :
    (scan_ratios (1 : ℚ) 2 1 []).ratios = [1] ∧
    (2 : ℚ) ∉ (scan_ratios (1 : ℚ) 2 1 []).ratios := by
  have h : (scan_ratios (1 : ℚ) 2 1 []).ratios = [1] := rfl
  refine ⟨h, ?_⟩
  rw [h]
  norm_num

section GoldenRatio

lemma contains_mk (i : ℕ) (c lo up hw a : α) :
    (⟨i, c, lo, up, hw⟩ : PhaseWindow α).contains a ↔ lo ≤ a ∧ a ≤ up :=
  Iff.rfl

lemma sqrt5_sq : Real.sqrt 5 ^ 2 = 5 := Real.sq_sqrt (by norm_num)

lemma sqrt5_lower : (2.2 : ℝ) < Real.sqrt 5 := by
  nlinarith [Real.sqrt_nonneg 5, sqrt5_sq]

lemma sqrt5_upper : Real.sqrt 5 < (2.3 : ℝ) := by
  nlinarith [Real.sqrt_nonneg 5, sqrt5_sq]

lemma phi_c1 : 6 * ((1 + Real.sqrt 5) / 2) ^ 1 = 3 + 3 * Real.sqrt 5 := by
  ring

lemma phi_c2 : 6 * ((1 + Real.sqrt 5) / 2) ^ 2 = 9 + 3 * Real.sqrt 5 := by
  linear_combination (3/2) * sqrt5_sq

lemma phi_c3 : 6 * ((1 + Real.sqrt 5) / 2) ^ 3 = 12 + 6 * Real.sqrt 5 := by
  linear_combination (3/4 * Real.sqrt 5 + 9/4) * sqrt5_sq

lemma phi_c4 : 6 * ((1 + Real.sqrt 5) / 2) ^ 4 = 21 + 9 * Real.sqrt 5 := by
  linear_combination
    (3/8 * Real.sqrt 5 ^ 2 + 3/2 * Real.sqrt 5 + 33/8) * sqrt5_sq

lemma phi_c5 : 6 * ((1 + Real.sqrt 5) / 2) ^ 5 = 33 + 15 * Real.sqrt 5 := by
  linear_combination
    (3/16 * Real.sqrt 5 ^ 3 + 15/16 * Real.sqrt 5 ^ 2 + 45/16 * Real.sqrt 5
      + 105/16) * sqrt5_sq

/-- The five golden-ratio phase windows in closed form: centres
`6φ^k = [9.71, 15.71, 25.42, 41.12, 66.54]` and breathing half-widths
`[3, 4.5, 6.75, 10.125, 15.1875]`. -/
lemma windows_phi :
    build_phase_windows (6 : ℝ) ((1 + Real.sqrt 5) / 2) 3 (3/2) 5 =
      [⟨1, 3 + 3 * Real.sqrt 5, 3 * Real.sqrt 5, 6 + 3 * Real.sqrt 5, 3⟩,
       ⟨2, 9 + 3 * Real.sqrt 5, 9/2 + 3 * Real.sqrt 5,
         27/2 + 3 * Real.sqrt 5, 9/2⟩,
       ⟨3, 12 + 6 * Real.sqrt 5, 21/4 + 6 * Real.sqrt 5,
         75/4 + 6 * Real.sqrt 5, 27/4⟩,
       ⟨4, 21 + 9 * Real.sqrt 5, 87/8 + 9 * Real.sqrt 5,
         249/8 + 9 * Real.sqrt 5, 81/8⟩,
       ⟨5, 33 + 15 * Real.sqrt 5, 285/16 + 15 * Real.sqrt 5,
         771/16 + 15 * Real.sqrt 5, 243/16⟩] := by
  unfold build_phase_windows compute_phase_centres compute_window_half_widths
    zip_windows
  norm_num [List.range_succ, zip_windows_from, phi_c1, phi_c2, phi_c3,
    phi_c4, phi_c5]
  simp only [goldenRatio]
  and_intros <;> ring

/-- Full evaluation of the golden-ratio scenario: ages `[9, 24, 40, 62,
88]` give coverage `4/5`, with `24` landing in window 3 (window 2 ends at
`≈ 20.2`), `40` in window 4, `62` in window 5, and `88` beyond the last
window's upper edge `≈ 81.7`. -/
lemma coverage_phi_eval :
    coverage_for_ages ([9, 24, 40, 62, 88] : List ℝ)
      (build_phase_windows (6 : ℝ) ((1 + Real.sqrt 5) / 2) 3 (3/2) 5) =
      (4/5, [true, true, true, true, false],
       [some 1, some 3, some 4, some 5, none]) := by
  have hlo := sqrt5_lower
  have hup := sqrt5_upper
  rw [windows_phi]
  have c1_9 : (⟨1, 3 + 3 * Real.sqrt 5, 3 * Real.sqrt 5,
      6 + 3 * Real.sqrt 5, 3⟩ : PhaseWindow ℝ).contains 9 := by
    simp only [contains_mk]
    exact ⟨by linarith, by linarith⟩
  have n1_24 : ¬ (⟨1, 3 + 3 * Real.sqrt 5, 3 * Real.sqrt 5,
      6 + 3 * Real.sqrt 5, 3⟩ : PhaseWindow ℝ).contains 24 := by
    simp only [contains_mk]
    rintro ⟨-, h⟩
    linarith
  have n2_24 : ¬ (⟨2, 9 + 3 * Real.sqrt 5, 9/2 + 3 * Real.sqrt 5,
      27/2 + 3 * Real.sqrt 5, 9/2⟩ : PhaseWindow ℝ).contains 24 := by
    simp only [contains_mk]
    rintro ⟨-, h⟩
    linarith
  have c3_24 : (⟨3, 12 + 6 * Real.sqrt 5, 21/4 + 6 * Real.sqrt 5,
      75/4 + 6 * Real.sqrt 5, 27/4⟩ : PhaseWindow ℝ).contains 24 := by
    simp only [contains_mk]
    exact ⟨by linarith, by linarith⟩
  have n1_40 : ¬ (⟨1, 3 + 3 * Real.sqrt 5, 3 * Real.sqrt 5,
      6 + 3 * Real.sqrt 5, 3⟩ : PhaseWindow ℝ).contains 40 := by
    simp only [contains_mk]
    rintro ⟨-, h⟩
    linarith
  have n2_40 : ¬ (⟨2, 9 + 3 * Real.sqrt 5, 9/2 + 3 * Real.sqrt 5,
      27/2 + 3 * Real.sqrt 5, 9/2⟩ : PhaseWindow ℝ).contains 40 := by
    simp only [contains_mk]
    rintro ⟨-, h⟩
    linarith
  have n3_40 : ¬ (⟨3, 12 + 6 * Real.sqrt 5, 21/4 + 6 * Real.sqrt 5,
      75/4 + 6 * Real.sqrt 5, 27/4⟩ : PhaseWindow ℝ).contains 40 := by
    simp only [contains_mk]
    rintro ⟨-, h⟩
    linarith
  have c4_40 : (⟨4, 21 + 9 * Real.sqrt 5, 87/8 + 9 * Real.sqrt 5,
      249/8 + 9 * Real.sqrt 5, 81/8⟩ : PhaseWindow ℝ).contains 40 := by
    simp only [contains_mk]
    exact ⟨by linarith, by linarith⟩
  have n1_62 : ¬ (⟨1, 3 + 3 * Real.sqrt 5, 3 * Real.sqrt 5,
      6 + 3 * Real.sqrt 5, 3⟩ : PhaseWindow ℝ).contains 62 := by
    simp only [contains_mk]
    rintro ⟨-, h⟩
    linarith
  have n2_62 : ¬ (⟨2, 9 + 3 * Real.sqrt 5, 9/2 + 3 * Real.sqrt 5,
      27/2 + 3 * Real.sqrt 5, 9/2⟩ : PhaseWindow ℝ).contains 62 := by
    simp only [contains_mk]
    rintro ⟨-, h⟩
    linarith
  have n3_62 : ¬ (⟨3, 12 + 6 * Real.sqrt 5, 21/4 + 6 * Real.sqrt 5,
      75/4 + 6 * Real.sqrt 5, 27/4⟩ : PhaseWindow ℝ).contains 62 := by
    simp only [contains_mk]
    rintro ⟨-, h⟩
    linarith
  have n4_62 : ¬ (⟨4, 21 + 9 * Real.sqrt 5, 87/8 + 9 * Real.sqrt 5,
      249/8 + 9 * Real.sqrt 5, 81/8⟩ : PhaseWindow ℝ).contains 62 := by
    simp only [contains_mk]
    rintro ⟨-, h⟩
    linarith
  have c5_62 : (⟨5, 33 + 15 * Real.sqrt 5, 285/16 + 15 * Real.sqrt 5,
      771/16 + 15 * Real.sqrt 5, 243/16⟩ : PhaseWindow ℝ).contains 62 := by
    simp only [contains_mk]
    exact ⟨by linarith, by linarith⟩
  have n1_88 : ¬ (⟨1, 3 + 3 * Real.sqrt 5, 3 * Real.sqrt 5,
      6 + 3 * Real.sqrt 5, 3⟩ : PhaseWindow ℝ).contains 88 := by
    simp only [contains_mk]
    rintro ⟨-, h⟩
    linarith
  have n2_88 : ¬ (⟨2, 9 + 3 * Real.sqrt 5, 9/2 + 3 * Real.sqrt 5,
      27/2 + 3 * Real.sqrt 5, 9/2⟩ : PhaseWindow ℝ).contains 88 := by
    simp only [contains_mk]
    rintro ⟨-, h⟩
    linarith
  have n3_88 : ¬ (⟨3, 12 + 6 * Real.sqrt 5, 21/4 + 6 * Real.sqrt 5,
      75/4 + 6 * Real.sqrt 5, 27/4⟩ : PhaseWindow ℝ).contains 88 := by
    simp only [contains_mk]
    rintro ⟨-, h⟩
    linarith
  have n4_88 : ¬ (⟨4, 21 + 9 * Real.sqrt 5, 87/8 + 9 * Real.sqrt 5,
      249/8 + 9 * Real.sqrt 5, 81/8⟩ : PhaseWindow ℝ).contains 88 := by
    simp only [contains_mk]
    rintro ⟨-, h⟩
    linarith
  have n5_88 : ¬ (⟨5, 33 + 15 * Real.sqrt 5, 285/16 + 15 * Real.sqrt 5,
      771/16 + 15 * Real.sqrt 5, 243/16⟩ : PhaseWindow ℝ).contains 88 := by
    simp only [contains_mk]
    rintro ⟨-, h⟩
    linarith
  simp only [coverage_for_ages, first_match, List.map_cons, List.map_nil,
    c1_9, n1_24, n2_24, c3_24, n1_40, n2_40, n3_40, c4_40,
    n1_62, n2_62, n3_62, n4_62, c5_62, n1_88, n2_88, n3_88, n4_88, n5_88,
    if_true, if_false, Option.isSome_some, Option.isSome_none]
  norm_num [List.count_cons, List.count_nil]

end GoldenRatio

/-- C3 (amended, theorem): with `A = 6`, `phi = (1+√5)/2`, `K = 5`,
`w0 = 3`, `g = 1.5`, scoring the ages `[9, 24, 40, 62, 88]` against the
constructed phase windows yields coverage `0.8` and assignment
`[1, 3, 4, 5, none]`: `24` is matched first by window 3 (window 2 is
`[≈11.2, ≈20.2]`), `40` by window 4, `62` by window 5, and `88` lies above
the last window's upper bound `≈ 81.7`. -/
theorem phi_scenario_eval :
    coverage_for_ages ([9, 24, 40, 62, 88] : List ℝ)
      (build_phase_windows (6 : ℝ) ((1 + Real.sqrt 5) / 2) 3 (3/2) 5) =
      (4/5, [true, true, true, true, false],
       [some 1, some 3, some 4, some 5, none]) :=
  coverage_phi_eval

/-- C3 (counterexample): the claimed values are refuted at the claim's own
concrete input: the coverage is not `1.0` and the assignment is not
`[1, 2, 3, 4, 5]`. -/
theorem phi_scenario_counterexample :
    (coverage_for_ages ([9, 24, 40, 62, 88] : List ℝ)
      (build_phase_windows (6 : ℝ) ((1 + Real.sqrt 5) / 2) 3 (3/2) 5)).1
      ≠ 1 ∧
    (coverage_for_ages ([9, 24, 40, 62, 88] : List ℝ)
      (build_phase_windows (6 : ℝ) ((1 + Real.sqrt 5) / 2) 3 (3/2) 5)).2.2
      ≠ [some 1, some 2, some 3, some 4, some 5] := by
  rw [coverage_phi_eval]
  constructor
  · norm_num
  · decide

/-- C2 (counterexample): with the invalid anchor `A = -1 ≤ 0` (and
otherwise ordinary parameters) `build_phase_windows` does not fail: it
returns a fully built list of 5 windows, whose first window is the one
computed from the invalid anchor. -/
theorem validation_counterexample :
    (build_phase_windows (-1 : ℚ) (3/2) 3 (3/2) 5).length = 5 ∧
    (build_phase_windows (-1 : ℚ) (3/2) 3 (3/2) 5).getD 0 dummy_window =
      ⟨1, -3/2, -9/2, 3/2, 3⟩ := by
  constructor
  · rfl
  · show (⟨1, (-1 : ℚ) * (3/2 : ℚ) ^ (0 + 1), _, _, _⟩ : PhaseWindow ℚ) = _
    norm_num [build_phase_windows, compute_phase_centres,
      compute_window_half_widths, zip_windows, zip_windows_from]
